import Mathlib

/-!
Verification of the two cores of this repository against their specification.

Core A (`src/1/corobus.cpp`) is a multi-channel bounded message bus for
cooperatively scheduled coroutines.  The embedding models the bus state
(`struct coro_bus`) as a list of optional channels plus the allocated table
capacity, and a channel (`struct coro_bus_channel`) as its ring storage,
element count and head index.  The global error register is threaded through
results: every operation of the C source sets `global_error` on every path,
so the error component of a result is exactly the value the register holds
after the call.  The coroutine wakeup queues hold stack-allocated entries of
suspended waiters; the claims under study observe only how many
`wakeup_queue_wakeup_first` calls an operation performs on each queue, so the
embedding records those counts in the result instead of the queue contents.

Core B (`src/2/solution.cpp`) is a shell pipeline executor.  Pure logic
(exit-code parsing, builtin dispatch, `&&`/`||` sequencing, background
bookkeeping) is embedded directly; OS interactions (`fork`, `chdir`, `open`,
`execvp`, pipes) are abstracted as oracle parameters supplying their outcomes.
-/

namespace Corobus

/-- `enum coro_bus_error_code` from `corobus.h`. -/
inductive ErrCode where
  | NONE
  | NO_CHANNEL
  | WOULD_BLOCK
  | NOT_IMPLEMENTED
  deriving DecidableEq, Repr

/-- `struct coro_bus_channel`: ring storage `data` (length = `size_limit`),
current element count `data_count` and head index `data_head`.  The two
wakeup queues hold no data relevant to the claims; wakeup calls are counted
in `OpResult` instead. -/
structure Channel where
  size_limit : Nat
  data : List Nat
  data_count : Nat
  data_head : Nat
  deriving DecidableEq, Repr

/-- `struct coro_bus`: the channel slot table (`channels` up to
`channel_count`, modelled as the list itself) and the allocated table
capacity `channel_capacity`.  Slots past `channel_count` are uninitialised
in the C source and never read, so they are not modelled. -/
structure Bus where
  channels : List (Option Channel)
  channel_capacity : Nat
  deriving DecidableEq, Repr

/-- Result of one bus operation: the new bus state, the `int` return value,
the value left in `global_error`, the values written through the output
pointer (`*data` for recv variants), and the number of
`wakeup_queue_wakeup_first` calls made on the send and recv queue of the
touched channel. -/
structure OpResult where
  bus : Bus
  ret : Int
  err : ErrCode
  out : List Nat
  sendWakeups : Nat
  recvWakeups : Nat
  deriving DecidableEq, Repr

/-- A failing operation: state unchanged, `-1` returned, error set,
no output, no wakeups. -/
def failRes (bus : Bus) (e : ErrCode) : OpResult :=
  { bus := bus, ret := -1, err := e, out := [], sendWakeups := 0, recvWakeups := 0 }

/-- Lines 231-233 of `coro_bus_try_send`: write `data` at
`(data_head + data_count) % size_limit` and increment `data_count`. -/
def chan_push (ch : Channel) (v : Nat) : Channel :=
  { ch with
    data := ch.data.set ((ch.data_head + ch.data_count) % ch.size_limit) v
    data_count := ch.data_count + 1 }

/-- Line 283 of `coro_bus_try_recv`: the value read at `data_head`. -/
def chan_front (ch : Channel) : Nat :=
  ch.data.getD ch.data_head 0

/-- Lines 284-285 of `coro_bus_try_recv`: advance `data_head` modulo
`size_limit` and decrement `data_count`. -/
def chan_pop (ch : Channel) : Channel :=
  { ch with
    data_head := (ch.data_head + 1) % ch.size_limit
    data_count := ch.data_count - 1 }

/-- The slot a channel id refers to: `none` if the id is negative,
out of range, or the slot was cleared by `close`. -/
def slotOf (bus : Bus) (channel : Int) : Option Channel :=
  if channel < 0 then none else bus.channels.getD channel.toNat none

/-- Replace the slot of a (valid) channel id. -/
def setSlot (bus : Bus) (idx : Nat) (c : Option Channel) : Bus :=
  { bus with channels := bus.channels.set idx c }

/-- `coro_bus_try_send` (src/1/corobus.cpp:212-239): range check, null-slot
check, fullness check (`data_count >= size_limit` ⇒ `WOULD_BLOCK`), else
append at the ring tail, wake one receiver, clear the error. -/
def coro_bus_try_send (bus : Bus) (channel : Int) (v : Nat) : OpResult :=
  if channel < 0 ∨ (bus.channels.length : Int) ≤ channel then
    failRes bus .NO_CHANNEL
  else
    match bus.channels.getD channel.toNat none with
    | none => failRes bus .NO_CHANNEL
    | some ch =>
      if ch.size_limit ≤ ch.data_count then failRes bus .WOULD_BLOCK
      else
        { bus := setSlot bus channel.toNat (some (chan_push ch v))
          ret := 0, err := .NONE, out := [], sendWakeups := 0, recvWakeups := 1 }

/-- `coro_bus_try_recv` (src/1/corobus.cpp:264-291): range check, null-slot
check, emptiness check (`data_count == 0` ⇒ `WOULD_BLOCK`), else read the
head, advance it, wake one sender, clear the error. -/
def coro_bus_try_recv (bus : Bus) (channel : Int) : OpResult :=
  if channel < 0 ∨ (bus.channels.length : Int) ≤ channel then
    failRes bus .NO_CHANNEL
  else
    match bus.channels.getD channel.toNat none with
    | none => failRes bus .NO_CHANNEL
    | some ch =>
      if ch.data_count = 0 then failRes bus .WOULD_BLOCK
      else
        { bus := setSlot bus channel.toNat (some (chan_pop ch))
          ret := 0, err := .NONE, out := [chan_front ch]
          sendWakeups := 1, recvWakeups := 0 }

/-- `coro_bus_channel_close` (src/1/corobus.cpp:164-187): on a valid,
non-empty slot, clear the slot (the queue draining, the scheduler yield and
the `free` calls touch no modelled state).  Out-of-range ids and already
empty slots are no-ops. -/
def coro_bus_channel_close (bus : Bus) (channel : Int) : Bus :=
  if channel < 0 ∨ (bus.channels.length : Int) ≤ channel then bus
  else
    match bus.channels.getD channel.toNat none with
    | none => bus
    | some _ => setSlot bus channel.toNat none

/-- Outcome of one iteration of a blocking-operation loop: either the
function returns (`done`) or the coroutine parks on a wakeup queue
(`suspend`) and the loop re-runs after resumption. -/
inductive LoopStep where
  | done (r : OpResult)
  | suspend (bus : Bus)
  deriving DecidableEq, Repr

/-- One iteration of the `while (true)` loop of `coro_bus_send`
(src/1/corobus.cpp:189-210): re-check the slot (negative, out of range, or
`NULL` ⇒ `NO_CHANNEL`), then `try_send`; success returns, a non-`WOULD_BLOCK`
error returns `-1`, `WOULD_BLOCK` suspends on the send queue. -/
def coro_bus_send_step (bus : Bus) (channel : Int) (v : Nat) : LoopStep :=
  if channel < 0 ∨ (bus.channels.length : Int) ≤ channel ∨
      bus.channels.getD channel.toNat none = none then
    .done (failRes bus .NO_CHANNEL)
  else
    let r := coro_bus_try_send bus channel v
    if r.ret = 0 then .done r
    else if r.err = .WOULD_BLOCK then .suspend r.bus
    else .done r

/-- One iteration of the `while (true)` loop of `coro_bus_recv`
(src/1/corobus.cpp:241-262), symmetric to `coro_bus_send_step` but
suspending on the recv queue. -/
def coro_bus_recv_step (bus : Bus) (channel : Int) : LoopStep :=
  if channel < 0 ∨ (bus.channels.length : Int) ≤ channel ∨
      bus.channels.getD channel.toNat none = none then
    .done (failRes bus .NO_CHANNEL)
  else
    let r := coro_bus_try_recv bus channel
    if r.ret = 0 then .done r
    else if r.err = .WOULD_BLOCK then .suspend r.bus
    else .done r

/-- `coro_bus_try_broadcast` (src/1/corobus.cpp:296-332): count the live
channels (`NO_CHANNEL` if none), fail `WOULD_BLOCK` if any live channel is
full — both checks before any mutation — else push the value into every
live channel and wake one receiver on each. -/
def coro_bus_try_broadcast (bus : Bus) (v : Nat) : OpResult :=
  let active := bus.channels.countP (fun c => c.isSome)
  if active = 0 then failRes bus .NO_CHANNEL
  else if bus.channels.any (fun c =>
      match c with
      | some ch => decide (ch.size_limit ≤ ch.data_count)
      | none => false) then
    failRes bus .WOULD_BLOCK
  else
    { bus := { bus with
        channels := bus.channels.map (fun c => c.map (fun ch => chan_push ch v)) }
      ret := 0, err := .NONE, out := [], sendWakeups := 0, recvWakeups := active }

/-- The transfer loop of `coro_bus_try_send_v` (src/1/corobus.cpp:379-385):
`while (sent < count && data_count < size_limit)` push the next element;
returns the updated channel and the number of elements sent. -/
def send_v_loop (ch : Channel) (vs : List Nat) : Channel × Nat :=
  match vs with
  | [] => (ch, 0)
  | v :: rest =>
    if ch.data_count < ch.size_limit then
      let p := send_v_loop (chan_push ch v) rest
      (p.1, p.2 + 1)
    else (ch, 0)

/-- `coro_bus_try_send_v` (src/1/corobus.cpp:360-393): range and null-slot
checks, `WOULD_BLOCK` when full at entry, else run the transfer loop, wake
one receiver per element sent, and return the sent count. -/
def coro_bus_try_send_v (bus : Bus) (channel : Int) (vs : List Nat) : OpResult :=
  if channel < 0 ∨ (bus.channels.length : Int) ≤ channel then
    failRes bus .NO_CHANNEL
  else
    match bus.channels.getD channel.toNat none with
    | none => failRes bus .NO_CHANNEL
    | some ch =>
      if ch.size_limit ≤ ch.data_count then failRes bus .WOULD_BLOCK
      else
        let p := send_v_loop ch vs
        { bus := setSlot bus channel.toNat (some p.1)
          ret := (p.2 : Int), err := .NONE, out := []
          sendWakeups := 0, recvWakeups := p.2 }

/-- The transfer loop of `coro_bus_try_recv_v` (src/1/corobus.cpp:437-443):
`while (received < capacity && data_count > 0)` pop the head; returns the
updated channel and the received values in order. -/
def recv_v_loop (ch : Channel) (capacity : Nat) : Channel × List Nat :=
  match capacity with
  | 0 => (ch, [])
  | k + 1 =>
    if 0 < ch.data_count then
      let v := chan_front ch
      let p := recv_v_loop (chan_pop ch) k
      (p.1, v :: p.2)
    else (ch, [])

/-- `coro_bus_try_recv_v` (src/1/corobus.cpp:418-451): range and null-slot
checks, `WOULD_BLOCK` when empty at entry, else run the transfer loop, wake
one sender per element received, and return the received count. -/
def coro_bus_try_recv_v (bus : Bus) (channel : Int) (capacity : Nat) : OpResult :=
  if channel < 0 ∨ (bus.channels.length : Int) ≤ channel then
    failRes bus .NO_CHANNEL
  else
    match bus.channels.getD channel.toNat none with
    | none => failRes bus .NO_CHANNEL
    | some ch =>
      if ch.data_count = 0 then failRes bus .WOULD_BLOCK
      else
        let p := recv_v_loop ch capacity
        { bus := setSlot bus channel.toNat (some p.1)
          ret := (p.2.length : Int), err := .NONE, out := p.2
          sendWakeups := p.2.length, recvWakeups := 0 }

/-- One iteration of the `while (true)` loop of `coro_bus_send_v`
(src/1/corobus.cpp:395-416): re-check the slot, then `try_send_v`; a
positive return is passed through, `WOULD_BLOCK` suspends on the send
queue, any other outcome returns `-1` with the error left as set. -/
def coro_bus_send_v_step (bus : Bus) (channel : Int) (vs : List Nat) : LoopStep :=
  if channel < 0 ∨ (bus.channels.length : Int) ≤ channel ∨
      bus.channels.getD channel.toNat none = none then
    .done (failRes bus .NO_CHANNEL)
  else
    let r := coro_bus_try_send_v bus channel vs
    if 0 < r.ret then .done r
    else if r.err = .WOULD_BLOCK then .suspend r.bus
    else .done { r with ret := -1 }

/-- One iteration of the `while (true)` loop of `coro_bus_recv_v`
(src/1/corobus.cpp:453-474), symmetric to `coro_bus_send_v_step` but
suspending on the recv queue. -/
def coro_bus_recv_v_step (bus : Bus) (channel : Int) (capacity : Nat) : LoopStep :=
  if channel < 0 ∨ (bus.channels.length : Int) ≤ channel ∨
      bus.channels.getD channel.toNat none = none then
    .done (failRes bus .NO_CHANNEL)
  else
    let r := coro_bus_try_recv_v bus channel capacity
    if 0 < r.ret then .done r
    else if r.err = .WOULD_BLOCK then .suspend r.bus
    else .done { r with ret := -1 }

/-- The channel-table growth step of `coro_bus_channel_open`
(src/1/corobus.cpp:135-147): capacity 0 becomes 4, a capacity at most 1024
doubles, a larger capacity grows by a quarter (integer division). -/
def grow_capacity (c : Nat) : Nat :=
  if c = 0 then 4
  else if c ≤ 1024 then c * 2
  else c + c / 4

/-- The slot-reuse scan of `coro_bus_channel_open`
(src/1/corobus.cpp:117-131): index of the first `NULL` slot, if any. -/
def find_empty_slot : List (Option Channel) → Option Nat
  | [] => none
  | none :: _ => some 0
  | some _ :: rest => (find_empty_slot rest).map (· + 1)

/-- A freshly allocated channel (src/1/corobus.cpp:119-126 and 149-156):
ring of exactly `size_limit` cells, empty, head at 0.  The `malloc`-ed ring
is uninitialised in C and never read before being written; it is modelled
as zeros. -/
def newChannel (size_limit : Nat) : Channel :=
  { size_limit := size_limit, data := List.replicate size_limit 0
    data_count := 0, data_head := 0 }

/-- `coro_bus_channel_open` (src/1/corobus.cpp:114-162): reuse the lowest
`NULL` slot if one exists; otherwise grow the table when it is at capacity
and append the new channel, returning its index. -/
def coro_bus_channel_open (bus : Bus) (size_limit : Nat) : Bus × Int :=
  match find_empty_slot bus.channels with
  | some i =>
    ({ bus with channels := bus.channels.set i (some (newChannel size_limit)) },
     (i : Int))
  | none =>
    let newCap :=
      if bus.channel_capacity ≤ bus.channels.length then
        grow_capacity bus.channel_capacity
      else bus.channel_capacity
    ({ channels := bus.channels ++ [some (newChannel size_limit)]
       channel_capacity := newCap },
     (bus.channels.length : Int))

/-- The abstract contents of a channel: the `data_count` ring cells starting
at `data_head`, in FIFO order. -/
def chanContents (ch : Channel) : List Nat :=
  (List.range ch.data_count).map
    (fun i => ch.data.getD ((ch.data_head + i) % ch.size_limit) 0)

/-- The channel representation invariant: the ring has exactly `size_limit`
cells, the count never exceeds the capacity, and the head is in range (or 0
for the degenerate capacity-0 channel). -/
def chanInv (ch : Channel) : Prop :=
  ch.data.length = ch.size_limit ∧ ch.data_count ≤ ch.size_limit ∧
    (ch.data_head < ch.size_limit ∨ ch.data_head = 0)

instance (ch : Channel) : Decidable (chanInv ch) :=
  inferInstanceAs (Decidable (ch.data.length = ch.size_limit ∧
    ch.data_count ≤ ch.size_limit ∧
    (ch.data_head < ch.size_limit ∨ ch.data_head = 0)))

/-- Iterated `chan_push` (the effect of a successful multi-element send). -/
def chanPushAll (ch : Channel) (vs : List Nat) : Channel :=
  vs.foldl chan_push ch

/-- Test harness: perform `coro_bus_try_send` once per value, recording
whether every call returned 0. -/
def trySendAll (bus : Bus) (channel : Int) : List Nat → Bus × Bool
  | [] => (bus, true)
  | v :: rest =>
    let r := coro_bus_try_send bus channel v
    let p := trySendAll r.bus channel rest
    (p.1, decide (r.ret = 0) && p.2)

/-- Test harness: perform `coro_bus_try_recv` `k` times, recording the
received values in order and whether every call returned 0. -/
def tryRecvAll (bus : Bus) (channel : Int) : Nat → Bus × List Nat × Bool
  | 0 => (bus, [], true)
  | k + 1 =>
    let r := coro_bus_try_recv bus channel
    let p := tryRecvAll r.bus channel k
    (p.1, r.out ++ p.2.1, decide (r.ret = 0) && p.2.2)

end Corobus

namespace Shell

/-- `enum output_type` from `parser.h`. -/
inductive OutputType where
  | STDOUT
  | FILE_NEW
  | FILE_APPEND
  deriving DecidableEq, Repr

/-- `enum expr_type` from `parser.h`. -/
inductive ExprType where
  | COMMAND
  | PIPE
  | AND
  | OR
  deriving DecidableEq, Repr

/-- `struct command` from `parser.h`: executable name and arguments. -/
structure Command where
  exe : String
  args : List String
  deriving DecidableEq, Repr

/-- `struct command_line` from `parser.h`, minus the expression list (the
executor consumes it only through `parse_command_sequence`, whose output is
a `ParsedSequence`). -/
structure CommandLine where
  out_type : OutputType
  out_file : String
  is_background : Bool
  deriving DecidableEq, Repr

/-- `struct exec_result` (src/2/solution.cpp:18-21). -/
structure ExecResult where
  code : Int
  should_exit : Bool
  deriving DecidableEq, Repr

/-- `struct parsed_sequence` (src/2/solution.cpp:28-31): pipelines split at
`&&`/`||`, with the joining operators. -/
structure ParsedSequence where
  pipelines : List (List Command)
  operators : List ExprType
  deriving DecidableEq, Repr

/-- The digit run consumed by `std::stoi`, folded to its value. -/
def digitsToNat (ds : List Char) : Nat :=
  ds.foldl (fun acc c => acc * 10 + (c.toNat - 48)) 0

/-- `std::stoi(arg, &pos)` in base 10: skip leading whitespace, consume an
optional sign and a non-empty digit run, and report the value and the index
one past the last converted character.  `none` models the two exceptions
`parse_exit_code` catches: `invalid_argument` (no digits) and
`out_of_range` (value outside `int`). -/
def stoiParse (s : List Char) : Option (Int × Nat) :=
  let ws := (s.takeWhile (fun c => c.isWhitespace)).length
  let rest := s.drop ws
  let p : Int × Nat × List Char :=
    match rest with
    | '-' :: t => (-1, 1, t)
    | '+' :: t => (1, 1, t)
    | t => (1, 0, t)
  let ds := p.2.2.takeWhile Char.isDigit
  if ds.isEmpty then none
  else
    let v : Int := p.1 * (digitsToNat ds : Int)
    if v < -2147483648 ∨ 2147483647 < v then none
    else some (v, ws + p.2.1 + ds.length)

/-- `parse_exit_code` (src/2/solution.cpp:61-82): `std::stoi` must consume
the whole argument and yield a value in `[0, 255]`; every failure is
reported as `-1`. -/
def parse_exit_code (arg : String) : Int :=
  match stoiParse arg.data with
  | none => -1
  | some p =>
    if p.2 ≠ arg.data.length then -1
    else if p.1 < 0 ∨ 255 < p.1 then -1
    else p.1

/-- `get_exit_code` (src/2/solution.cpp:84-98): no argument defaults to the
previous status; an invalid first argument prints
`exit: invalid exit code: ...` and yields 1.  The second component records
whether the error message was printed. -/
def get_exit_code (cmd : Command) (last_status : Int) : Int × Bool :=
  match cmd.args with
  | [] => (last_status, false)
  | a :: _ =>
    let code := parse_exit_code a
    if code = -1 then (1, true) else (code, false)

/-- `handle_single_builtin` (src/2/solution.cpp:191-232).  The `cd` branch
(chdir plus the temporary stdout redirection) is pure OS interaction and is
supplied by the oracle `cd_exec`, called with the command and whether the
redirection applies (`is_last && out_type != STDOUT`).  The second
component of the result records whether the invalid-exit-code error was
printed. -/
def handle_single_builtin (cd_exec : Command → Bool → ExecResult)
    (cmd : Command) (line : CommandLine) (is_last : Bool) (allow_exit : Bool)
    (last_status : Int) : ExecResult × Bool :=
  if cmd.exe = "exit" ∧ allow_exit = true ∧ line.out_type = OutputType.STDOUT then
    let p := get_exit_code cmd last_status
    ({ code := p.1, should_exit := true }, p.2)
  else if cmd.exe = "cd" then
    (cd_exec cmd (is_last && decide (line.out_type ≠ OutputType.STDOUT)), false)
  else
    ({ code := 0, should_exit := false }, false)

/-- The `should_execute` closure of `run_command_sequence`
(src/2/solution.cpp:354-361): pipeline 0 always runs; pipeline `i > 0` runs
iff the operator before it is `And` and the status is 0, or `Or` and the
status is nonzero.  The C++ `operators[i-1]` access is in bounds whenever
the parser output is well-formed; the `getD` default covers the otherwise
undefined out-of-bounds read. -/
def should_execute (ops : List ExprType) (i : Nat) (status : Int) : Bool :=
  if i = 0 then true
  else
    match ops.getD (i - 1) ExprType.COMMAND with
    | .AND => decide (status = 0)
    | .OR => decide (status ≠ 0)
    | _ => false

/-- The pipeline loop of `run_command_sequence` (src/2/solution.cpp:363-387),
parameterised by the oracle `ex` standing for `execute_pipeline` (which
forks, pipes and waits): walk the pipelines left to right from index `i`;
a skipped pipeline leaves the status untouched; `should_exit` from a
pipeline terminates the walk at that pipeline's code.  `is_last` for a
pipeline is whether it is final in the plan. -/
def run_seq_from (ex : List Command → CommandLine → Bool → Bool → Int → ExecResult)
    (line : CommandLine) (allow_exit : Bool) (ops : List ExprType) :
    Nat → List (List Command) → Int → Int × Bool
  | _, [], status => (status, false)
  | i, p :: rest, status =>
    if should_execute ops i status then
      let r := ex p line rest.isEmpty allow_exit status
      if r.should_exit then (r.code, true)
      else run_seq_from ex line allow_exit ops (i + 1) rest r.code
    else run_seq_from ex line allow_exit ops (i + 1) rest status

/-- `run_command_sequence` (src/2/solution.cpp:349-388) on an already parsed
sequence: the final status and whether `should_exit` was signalled. -/
def run_command_sequence
    (ex : List Command → CommandLine → Bool → Bool → Int → ExecResult)
    (parsed : ParsedSequence) (line : CommandLine) (last_status : Int)
    (allow_exit : Bool) : Int × Bool :=
  run_seq_from ex line allow_exit parsed.operators 0 parsed.pipelines last_status

/-- The forked child of `execute_background_command`: the status it passes
to `_exit` and the signals it sets to `SIG_IGN` before running (the child
body at src/2/solution.cpp:395-398 installs no signal handlers, so the
ignored-signal list is empty). -/
structure BgChild where
  exit_status : Int
  ignored_signals : List String
  deriving DecidableEq, Repr

/-- `execute_background_command` (src/2/solution.cpp:390-406).  `forkResult`
abstracts the one `fork` call (`none` = failure).  Returns the number of
fork calls, the parent's success flag, the parent's background pid list,
and the spawned child, if any.  The child runs the whole sequence with
`allow_exit = false` and `_exit`s with the resulting status. -/
def execute_background_command
    (ex : List Command → CommandLine → Bool → Bool → Int → ExecResult)
    (parsed : ParsedSequence) (line : CommandLine) (last_status : Int)
    (bg : List Nat) (forkResult : Option Nat) :
    Nat × Bool × List Nat × Option BgChild :=
  match forkResult with
  | none => (1, false, bg, none)
  | some pid =>
    (1, true, bg ++ [pid],
     some { exit_status := (run_command_sequence ex parsed line last_status false).1
            ignored_signals := [] })

/-- `process_command_line` (src/2/solution.cpp:408-422): a background line
forks the sequence off, reports status 0 (or 1 on fork failure) and never
requests shell exit; a foreground line runs the sequence with
`allow_exit = true`.  Returns (new last status, should_exit, background
pids, spawned child). -/
def process_command_line
    (ex : List Command → CommandLine → Bool → Bool → Int → ExecResult)
    (parsed : ParsedSequence) (line : CommandLine) (last_status : Int)
    (bg : List Nat) (forkResult : Option Nat) :
    Int × Bool × List Nat × Option BgChild :=
  if line.is_background then
    let r := execute_background_command ex parsed line last_status bg forkResult
    (if r.2.1 then 0 else 1, false, r.2.2.1, r.2.2.2)
  else
    let r := run_command_sequence ex parsed line last_status true
    (r.1, r.2, bg, none)

end Shell

namespace Corobus

theorem chan_push_inv (ch : Channel) (v : Nat) (hinv : chanInv ch)
    (hroom : ch.data_count < ch.size_limit) : chanInv (chan_push ch v) := by
  obtain ⟨h1, h2, h3⟩ := hinv
  refine ⟨?_, ?_, ?_⟩ <;> simp only [chan_push, List.length_set] <;> omega

theorem chan_push_contents (ch : Channel) (v : Nat) (hinv : chanInv ch)
    (hroom : ch.data_count < ch.size_limit) :
    chanContents (chan_push ch v) = chanContents ch ++ [v] := by
  obtain ⟨h1, h2, h3⟩ := hinv
  have hpos : 0 < ch.size_limit := lt_of_le_of_lt (Nat.zero_le _) hroom
  simp only [chanContents, chan_push, List.range_succ, List.map_append,
    List.map_cons, List.map_nil]
  congr 1
  · refine List.map_congr_left ?_
    intro i hi
    have hi' : i < ch.data_count := List.mem_range.mp hi
    have hne : (ch.data_head + ch.data_count) % ch.size_limit ≠
        (ch.data_head + i) % ch.size_limit := by
      intro heq
      have hmod : Nat.ModEq ch.size_limit (ch.data_head + ch.data_count)
          (ch.data_head + i) := heq
      have hmod2 := Nat.ModEq.add_left_cancel' ch.data_head hmod
      have hmc : ch.data_count % ch.size_limit = ch.data_count :=
        Nat.mod_eq_of_lt hroom
      have hmi : i % ch.size_limit = i :=
        Nat.mod_eq_of_lt (lt_trans hi' hroom)
      have : ch.data_count = i := by
        have h' : ch.data_count % ch.size_limit = i % ch.size_limit := hmod2
        rwa [hmc, hmi] at h'
      omega
    simp [List.getD_eq_getElem?_getD, List.getElem?_set_ne hne]
  · have hlt : (ch.data_head + ch.data_count) % ch.size_limit < ch.data.length := by
      rw [h1]; exact Nat.mod_lt _ hpos
    simp [List.getD_eq_getElem?_getD, List.getElem?_set_self hlt]

theorem chan_pop_inv (ch : Channel) (hinv : chanInv ch)
    (hne : 0 < ch.data_count) : chanInv (chan_pop ch) := by
  obtain ⟨h1, h2, h3⟩ := hinv
  have hpos : 0 < ch.size_limit := lt_of_lt_of_le hne h2
  exact ⟨by simpa [chan_pop] using h1, by simp only [chan_pop]; omega,
    Or.inl (by simp only [chan_pop]; exact Nat.mod_lt _ hpos)⟩

theorem chan_pop_contents (ch : Channel) (hinv : chanInv ch)
    (hne : 0 < ch.data_count) :
    chanContents ch = chan_front ch :: chanContents (chan_pop ch) := by
  obtain ⟨h1, h2, h3⟩ := hinv
  have hpos : 0 < ch.size_limit := lt_of_lt_of_le hne h2
  have hhead : ch.data_head < ch.size_limit := by
    rcases h3 with h3 | h3
    · exact h3
    · omega
  obtain ⟨c, hc⟩ : ∃ c, ch.data_count = c + 1 := ⟨ch.data_count - 1, by omega⟩
  simp only [chanContents, chan_pop, hc, Nat.add_sub_cancel]
  rw [List.range_succ_eq_map]
  simp only [List.map_cons, List.map_map]
  congr 1
  · simp [chan_front, Nat.add_zero, Nat.mod_eq_of_lt hhead]
  · refine List.map_congr_left ?_
    intro i hi
    simp only [Function.comp]
    rw [Nat.mod_add_mod]
    congr 2
    omega

theorem chanPushAll_spec (vs : List Nat) : ∀ ch : Channel, chanInv ch →
    ch.data_count + vs.length ≤ ch.size_limit →
    chanInv (chanPushAll ch vs) ∧
    (chanPushAll ch vs).size_limit = ch.size_limit ∧
    (chanPushAll ch vs).data_count = ch.data_count + vs.length ∧
    chanContents (chanPushAll ch vs) = chanContents ch ++ vs := by
  induction vs with
  | nil => intro ch hinv hle; simpa [chanPushAll] using hinv
  | cons v rest ih =>
    intro ch hinv hle
    have hroom : ch.data_count < ch.size_limit := by
      simp only [List.length_cons] at hle; omega
    have hstep : chanPushAll ch (v :: rest) = chanPushAll (chan_push ch v) rest := rfl
    have hinv' := chan_push_inv ch v hinv hroom
    have hle' : (chan_push ch v).data_count + rest.length ≤ (chan_push ch v).size_limit := by
      simp only [chan_push, List.length_cons] at hle ⊢; omega
    obtain ⟨a, b, c, d⟩ := ih (chan_push ch v) hinv' hle'
    rw [hstep]
    refine ⟨a, by rw [b]; rfl, by rw [c]; simp [chan_push]; omega, ?_⟩
    rw [d, chan_push_contents ch v hinv hroom]
    simp

theorem setSlot_length (bus : Bus) (idx : Nat) (c : Option Channel) :
    (setSlot bus idx c).channels.length = bus.channels.length := by
  simp [setSlot]

theorem setSlot_getD_self (bus : Bus) (idx : Nat) (c : Option Channel)
    (h : idx < bus.channels.length) :
    (setSlot bus idx c).channels.getD idx none = c := by
  simp [setSlot, List.getD_eq_getElem?_getD, List.getElem?_set_self h]

theorem natCast_id_checks (len id : Nat) (h : id < len) :
    ¬((id : Int) < 0 ∨ (len : Int) ≤ (id : Int)) := by
  omega

theorem coro_bus_try_send_success (bus : Bus) (id : Nat) (ch : Channel) (v : Nat)
    (hid : id < bus.channels.length)
    (hslot : bus.channels.getD id none = some ch)
    (hroom : ch.data_count < ch.size_limit) :
    coro_bus_try_send bus (id : Int) v =
      { bus := setSlot bus id (some (chan_push ch v)), ret := 0, err := .NONE,
        out := [], sendWakeups := 0, recvWakeups := 1 } := by
  unfold coro_bus_try_send
  rw [if_neg (natCast_id_checks _ _ hid)]
  have h2 : ((id : Int)).toNat = id := Int.toNat_natCast id
  rw [h2, hslot]
  have hno : ¬ ch.size_limit ≤ ch.data_count := by omega
  simp [hno]

theorem coro_bus_try_recv_success (bus : Bus) (id : Nat) (ch : Channel)
    (hid : id < bus.channels.length)
    (hslot : bus.channels.getD id none = some ch)
    (hne : 0 < ch.data_count) :
    coro_bus_try_recv bus (id : Int) =
      { bus := setSlot bus id (some (chan_pop ch)), ret := 0, err := .NONE,
        out := [chan_front ch], sendWakeups := 1, recvWakeups := 0 } := by
  unfold coro_bus_try_recv
  rw [if_neg (natCast_id_checks _ _ hid)]
  have h2 : ((id : Int)).toNat = id := Int.toNat_natCast id
  rw [h2, hslot]
  have hno : ¬ ch.data_count = 0 := by omega
  simp [hno]

theorem trySendAll_spec (vs : List Nat) : ∀ (bus : Bus) (id : Nat) (ch : Channel),
    id < bus.channels.length →
    bus.channels.getD id none = some ch →
    chanInv ch →
    ch.data_count + vs.length ≤ ch.size_limit →
    (trySendAll bus (id : Int) vs).2 = true ∧
    (trySendAll bus (id : Int) vs).1.channels.length = bus.channels.length ∧
    (trySendAll bus (id : Int) vs).1.channels.getD id none = some (chanPushAll ch vs) := by
  induction vs with
  | nil =>
    intro bus id ch hid hslot hinv hle
    exact ⟨rfl, rfl, by simpa [trySendAll, chanPushAll] using hslot⟩
  | cons v rest ih =>
    intro bus id ch hid hslot hinv hle
    have hroom : ch.data_count < ch.size_limit := by
      simp only [List.length_cons] at hle; omega
    have hsucc := coro_bus_try_send_success bus id ch v hid hslot hroom
    have hid' : id < (setSlot bus id (some (chan_push ch v))).channels.length := by
      rw [setSlot_length]; exact hid
    have hslot' := setSlot_getD_self bus id (some (chan_push ch v)) hid
    have hinv' := chan_push_inv ch v hinv hroom
    have hle' : (chan_push ch v).data_count + rest.length ≤ (chan_push ch v).size_limit := by
      simp only [chan_push, List.length_cons] at hle ⊢; omega
    obtain ⟨a, b, c⟩ := ih (setSlot bus id (some (chan_push ch v))) id (chan_push ch v)
      hid' hslot' hinv' hle'
    simp only [trySendAll, hsucc]
    refine ⟨by simp [a], by rw [b, setSlot_length], by rw [c]; rfl⟩

theorem tryRecvAll_spec (k : Nat) : ∀ (bus : Bus) (id : Nat) (ch : Channel),
    id < bus.channels.length →
    bus.channels.getD id none = some ch →
    chanInv ch →
    k ≤ ch.data_count →
    (tryRecvAll bus (id : Int) k).2.2 = true ∧
    (tryRecvAll bus (id : Int) k).2.1 = (chanContents ch).take k := by
  induction k with
  | zero => intro bus id ch hid hslot hinv hk; exact ⟨rfl, rfl⟩
  | succ k ih =>
    intro bus id ch hid hslot hinv hk
    have hne : 0 < ch.data_count := by omega
    have hsucc := coro_bus_try_recv_success bus id ch hid hslot hne
    have hid' : id < (setSlot bus id (some (chan_pop ch))).channels.length := by
      rw [setSlot_length]; exact hid
    have hslot' := setSlot_getD_self bus id (some (chan_pop ch)) hid
    have hinv' := chan_pop_inv ch hinv hne
    have hk' : k ≤ (chan_pop ch).data_count := by
      simp only [chan_pop]; omega
    obtain ⟨a, b⟩ := ih (setSlot bus id (some (chan_pop ch))) id (chan_pop ch)
      hid' hslot' hinv' hk'
    simp only [tryRecvAll, hsucc]
    refine ⟨by simp [a], ?_⟩
    rw [chan_pop_contents ch hinv hne, List.take_succ_cons, b]
    rfl

theorem coro_bus_try_send_full (bus : Bus) (id : Nat) (ch : Channel) (v : Nat)
    (hid : id < bus.channels.length)
    (hslot : bus.channels.getD id none = some ch)
    (hfull : ch.size_limit ≤ ch.data_count) :
    coro_bus_try_send bus (id : Int) v = failRes bus .WOULD_BLOCK := by
  unfold coro_bus_try_send
  rw [if_neg (natCast_id_checks _ _ hid), Int.toNat_natCast, hslot]
  simp [hfull]

theorem coro_bus_try_recv_empty (bus : Bus) (id : Nat) (ch : Channel)
    (hid : id < bus.channels.length)
    (hslot : bus.channels.getD id none = some ch)
    (hempty : ch.data_count = 0) :
    coro_bus_try_recv bus (id : Int) = failRes bus .WOULD_BLOCK := by
  unfold coro_bus_try_recv
  rw [if_neg (natCast_id_checks _ _ hid), Int.toNat_natCast, hslot]
  simp [hempty]

theorem close_slotOf (bus : Bus) (id : Int) :
    slotOf (coro_bus_channel_close bus id) id = none := by
  unfold coro_bus_channel_close
  by_cases h1 : id < 0 ∨ (bus.channels.length : Int) ≤ id
  · rw [if_pos h1]
    unfold slotOf
    by_cases h0 : id < 0
    · rw [if_pos h0]
    · rw [if_neg h0]
      have hlen : bus.channels.length ≤ id.toNat := by omega
      simp [List.getD_eq_getElem?_getD, List.getElem?_eq_none hlen]
  · rw [if_neg h1]
    have h0 : ¬ id < 0 := fun hc => h1 (Or.inl hc)
    have hlt : id.toNat < bus.channels.length := by omega
    cases hEq : bus.channels.getD id.toNat none with
    | none =>
      unfold slotOf
      rw [if_neg h0]
      exact hEq
    | some ch =>
      unfold slotOf
      rw [if_neg h0]
      exact setSlot_getD_self bus id.toNat none hlt

theorem send_v_loop_spec (vs : List Nat) : ∀ ch : Channel, chanInv ch →
    send_v_loop ch vs =
      (chanPushAll ch (vs.take (min vs.length (ch.size_limit - ch.data_count))),
       min vs.length (ch.size_limit - ch.data_count)) := by
  induction vs with
  | nil => intro ch hinv; simp [send_v_loop, chanPushAll]
  | cons v rest ih =>
    intro ch hinv
    by_cases hroom : ch.data_count < ch.size_limit
    · have hinv' := chan_push_inv ch v hinv hroom
      simp only [send_v_loop, if_pos hroom, ih (chan_push ch v) hinv']
      have hL : (chan_push ch v).size_limit = ch.size_limit := rfl
      have hc : (chan_push ch v).data_count = ch.data_count + 1 := rfl
      rw [hL, hc]
      have hmin : min (v :: rest).length (ch.size_limit - ch.data_count)
          = min rest.length (ch.size_limit - (ch.data_count + 1)) + 1 := by
        simp only [List.length_cons]
        omega
      rw [hmin]
      rfl
    · have hz : ch.size_limit - ch.data_count = 0 := by omega
      simp [send_v_loop, hroom, hz, chanPushAll]

theorem coro_bus_try_send_v_full (bus : Bus) (id : Nat) (ch : Channel) (vs : List Nat)
    (hid : id < bus.channels.length)
    (hslot : bus.channels.getD id none = some ch)
    (hfull : ch.size_limit ≤ ch.data_count) :
    coro_bus_try_send_v bus (id : Int) vs = failRes bus .WOULD_BLOCK := by
  unfold coro_bus_try_send_v
  rw [if_neg (natCast_id_checks _ _ hid), Int.toNat_natCast, hslot]
  simp [hfull]

theorem coro_bus_try_send_v_room (bus : Bus) (id : Nat) (ch : Channel) (vs : List Nat)
    (hid : id < bus.channels.length)
    (hslot : bus.channels.getD id none = some ch)
    (hinv : chanInv ch)
    (hroom : ch.data_count < ch.size_limit) :
    coro_bus_try_send_v bus (id : Int) vs =
      { bus := setSlot bus id
          (some (chanPushAll ch (vs.take (min vs.length (ch.size_limit - ch.data_count)))))
        ret := (min vs.length (ch.size_limit - ch.data_count) : Nat)
        err := .NONE, out := []
        sendWakeups := 0
        recvWakeups := min vs.length (ch.size_limit - ch.data_count) } := by
  unfold coro_bus_try_send_v
  rw [if_neg (natCast_id_checks _ _ hid), Int.toNat_natCast, hslot]
  have hno : ¬ ch.size_limit ≤ ch.data_count := by omega
  simp [hno, send_v_loop_spec vs ch hinv]

theorem find_empty_slot_spec : ∀ (l : List (Option Channel)) (i : Nat),
    find_empty_slot l = some i →
    i < l.length ∧ l.getD i none = none ∧ ∀ j, j < i → l.getD j none ≠ none := by
  intro l
  induction l with
  | nil => intro i h; simp [find_empty_slot] at h
  | cons c rest ih =>
    intro i h
    cases c with
    | none =>
      simp only [find_empty_slot, Option.some_inj] at h
      subst h
      exact ⟨by simp, by simp, fun j hj => absurd hj (by omega)⟩
    | some ch =>
      simp only [find_empty_slot, Option.map_eq_some'] at h
      obtain ⟨i', hfind, hi⟩ := h
      subst hi
      obtain ⟨hlen, hslot, hmin⟩ := ih i' hfind
      refine ⟨by simp; omega, by simpa using hslot, ?_⟩
      intro j hj
      cases j with
      | zero => simp
      | succ j' =>
        simpa using hmin j' (by omega)

/-- C3: closing a channel empties its bus slot, and on an id whose slot is
empty — closed, out of range, or negative — every operation fails with
`NO_CHANNEL` and return value `-1`: the four try-variants directly, and the
four blocking variants on the first iteration of their retry loop (so, as
long as the slot stays empty, the blocking call returns without ever
suspending). -/
theorem claim_C3 (bus : Bus) (id : Int) (v : Nat) (vs : List Nat) (k : Nat)
    (h : slotOf bus id = none) :
    (∀ (b : Bus) (c : Int), slotOf (coro_bus_channel_close b c) c = none) ∧
    coro_bus_try_send bus id v = failRes bus .NO_CHANNEL ∧
    coro_bus_try_recv bus id = failRes bus .NO_CHANNEL ∧
    coro_bus_try_send_v bus id vs = failRes bus .NO_CHANNEL ∧
    coro_bus_try_recv_v bus id k = failRes bus .NO_CHANNEL ∧
    coro_bus_send_step bus id v = .done (failRes bus .NO_CHANNEL) ∧
    coro_bus_recv_step bus id = .done (failRes bus .NO_CHANNEL) ∧
    coro_bus_send_v_step bus id vs = .done (failRes bus .NO_CHANNEL) ∧
    coro_bus_recv_v_step bus id k = .done (failRes bus .NO_CHANNEL) := by
  have hgd : ¬ id < 0 → bus.channels.getD id.toNat none = none := by
    intro h0
    unfold slotOf at h
    rwa [if_neg h0] at h
  have hdisj : id < 0 ∨ (bus.channels.length : Int) ≤ id ∨
      bus.channels.getD id.toNat none = none := by
    by_cases h0 : id < 0
    · exact Or.inl h0
    · exact Or.inr (Or.inr (hgd h0))
  refine ⟨close_slotOf, ?_, ?_, ?_, ?_, ?_, ?_, ?_, ?_⟩
  · by_cases h0 : id < 0
    · unfold coro_bus_try_send; rw [if_pos (Or.inl h0)]
    · by_cases h1 : (bus.channels.length : Int) ≤ id
      · unfold coro_bus_try_send; rw [if_pos (Or.inr h1)]
      · unfold coro_bus_try_send; rw [if_neg (not_or.mpr ⟨h0, h1⟩), hgd h0]
  · by_cases h0 : id < 0
    · unfold coro_bus_try_recv; rw [if_pos (Or.inl h0)]
    · by_cases h1 : (bus.channels.length : Int) ≤ id
      · unfold coro_bus_try_recv; rw [if_pos (Or.inr h1)]
      · unfold coro_bus_try_recv; rw [if_neg (not_or.mpr ⟨h0, h1⟩), hgd h0]
  · by_cases h0 : id < 0
    · unfold coro_bus_try_send_v; rw [if_pos (Or.inl h0)]
    · by_cases h1 : (bus.channels.length : Int) ≤ id
      · unfold coro_bus_try_send_v; rw [if_pos (Or.inr h1)]
      · unfold coro_bus_try_send_v; rw [if_neg (not_or.mpr ⟨h0, h1⟩), hgd h0]
  · by_cases h0 : id < 0
    · unfold coro_bus_try_recv_v; rw [if_pos (Or.inl h0)]
    · by_cases h1 : (bus.channels.length : Int) ≤ id
      · unfold coro_bus_try_recv_v; rw [if_pos (Or.inr h1)]
      · unfold coro_bus_try_recv_v; rw [if_neg (not_or.mpr ⟨h0, h1⟩), hgd h0]
  · unfold coro_bus_send_step; rw [if_pos hdisj]
  · unfold coro_bus_recv_step; rw [if_pos hdisj]
  · unfold coro_bus_send_v_step; rw [if_pos hdisj]
  · unfold coro_bus_recv_v_step; rw [if_pos hdisj]

/-- Witness for C3 at a concrete bus whose only slot is empty. -/
theorem claim_C3_witness :
    slotOf ⟨[none], 4⟩ 0 = none ∧
    coro_bus_try_send ⟨[none], 4⟩ 0 1 = failRes ⟨[none], 4⟩ .NO_CHANNEL :=
  ⟨by decide, (claim_C3 ⟨[none], 4⟩ 0 1 [1] 1 (by decide)).2.1⟩

/-- C6: a blocking send parks (suspends on the send queue) when the channel
is full, and once the channel has been closed, the next iteration of the
send loop — the code run when the parked coroutine resumes — re-checks the
bus slot, finds it empty, and returns `-1` with `NO_CHANNEL`. -/
theorem claim_C6 (bus : Bus) (id : Nat) (ch : Channel) (v : Nat)
    (hid : id < bus.channels.length)
    (hslot : bus.channels.getD id none = some ch)
    (hfull : ch.size_limit ≤ ch.data_count) :
    coro_bus_send_step bus (id : Int) v = .suspend bus ∧
    coro_bus_send_step (coro_bus_channel_close bus (id : Int)) (id : Int) v =
      .done (failRes (coro_bus_channel_close bus (id : Int)) .NO_CHANNEL) := by
  constructor
  · unfold coro_bus_send_step
    have h3 : ¬ bus.channels.getD ((id : Int)).toNat none = none := by
      rw [Int.toNat_natCast, hslot]
      simp
    have hcond : ¬ ((id : Int) < 0 ∨ (bus.channels.length : Int) ≤ (id : Int) ∨
        bus.channels.getD ((id : Int)).toNat none = none) := by
      refine not_or.mpr ⟨by omega, not_or.mpr ⟨by omega, h3⟩⟩
    rw [if_neg hcond]
    simp [coro_bus_try_send_full bus id ch v hid hslot hfull, failRes]
  · have hslot' : (coro_bus_channel_close bus (id : Int)).channels.getD
        ((id : Int)).toNat none = none := by
      have hc := close_slotOf bus (id : Int)
      unfold slotOf at hc
      rwa [if_neg (by omega : ¬ (id : Int) < 0)] at hc
    unfold coro_bus_send_step
    rw [if_pos (Or.inr (Or.inr hslot'))]

/-- Witness for C6 at a concrete full capacity-1 channel. -/
theorem claim_C6_witness :
    ((0 : Nat) < 1 ∧
      ((⟨[some ⟨1, [5], 1, 0⟩], 4⟩ : Bus)).channels.getD 0 none = some ⟨1, [5], 1, 0⟩) ∧
    coro_bus_send_step ⟨[some ⟨1, [5], 1, 0⟩], 4⟩ 0 7 = .suspend ⟨[some ⟨1, [5], 1, 0⟩], 4⟩ :=
  ⟨by decide,
   (claim_C6 ⟨[some ⟨1, [5], 1, 0⟩], 4⟩ 0 ⟨1, [5], 1, 0⟩ 7 (by decide) (by decide)
     (by decide)).1⟩

/-- C10: on a channel of capacity 0 (accepted by `coro_bus_channel_open`
even though the spec requires capacity ≥ 1), `try_send` fails the fullness
check (`0 <= data_count`) and `try_recv` fails the emptiness check
(`data_count == 0` follows from the invariant), so both return `-1` with
`WOULD_BLOCK` and leave the bus untouched: the branches containing the
`% size_limit` ring indexing are never reached, and the ring itself is the
empty allocation. -/
theorem claim_C10 (bus : Bus) (id : Nat) (ch : Channel) (v : Nat)
    (hid : id < bus.channels.length)
    (hslot : bus.channels.getD id none = some ch)
    (hcap : ch.size_limit = 0)
    (hinv : chanInv ch) :
    coro_bus_try_send bus (id : Int) v = failRes bus .WOULD_BLOCK ∧
    coro_bus_try_recv bus (id : Int) = failRes bus .WOULD_BLOCK ∧
    (newChannel 0).data = [] := by
  have hcnt : ch.data_count = 0 := by
    obtain ⟨-, h2, -⟩ := hinv
    omega
  exact ⟨coro_bus_try_send_full bus id ch v hid hslot (by omega),
    coro_bus_try_recv_empty bus id ch hid hslot hcnt, rfl⟩

/-- Witness for C10 at the channel produced by opening capacity 0. -/
theorem claim_C10_witness :
    chanInv ⟨0, [], 0, 0⟩ ∧
    coro_bus_try_send ⟨[some ⟨0, [], 0, 0⟩], 4⟩ 0 9 =
      failRes ⟨[some ⟨0, [], 0, 0⟩], 4⟩ .WOULD_BLOCK :=
  ⟨by decide,
   (claim_C10 ⟨[some ⟨0, [], 0, 0⟩], 4⟩ 0 ⟨0, [], 0, 0⟩ 9 (by decide) (by decide)
     (by decide) (by decide)).1⟩

/-- C4: channels are FIFO.  Starting from an empty channel of capacity at
least `k = vs.length`, the `k` `try_send`s of `vs` all succeed, and the
next `k` `try_recv`s all succeed and return exactly `vs` in order. -/
theorem claim_C4 (bus : Bus) (id : Nat) (ch : Channel) (vs : List Nat)
    (hid : id < bus.channels.length)
    (hslot : bus.channels.getD id none = some ch)
    (hinv : chanInv ch)
    (hempty : ch.data_count = 0)
    (hcap : vs.length ≤ ch.size_limit) :
    (trySendAll bus (id : Int) vs).2 = true ∧
    (tryRecvAll (trySendAll bus (id : Int) vs).1 (id : Int) vs.length).2.2 = true ∧
    (tryRecvAll (trySendAll bus (id : Int) vs).1 (id : Int) vs.length).2.1 = vs := by
  have hle : ch.data_count + vs.length ≤ ch.size_limit := by omega
  obtain ⟨hok, hlen, hslot'⟩ := trySendAll_spec vs bus id ch hid hslot hinv hle
  obtain ⟨hinv', hsz, hcnt, hcont⟩ := chanPushAll_spec vs ch hinv hle
  have hid' : id < (trySendAll bus (id : Int) vs).1.channels.length := by
    rw [hlen]; exact hid
  have hcont0 : chanContents ch = [] := by simp [chanContents, hempty]
  have hcnt' : vs.length ≤ (chanPushAll ch vs).data_count := by rw [hcnt]; omega
  obtain ⟨hok2, houts⟩ :=
    tryRecvAll_spec vs.length _ id (chanPushAll ch vs) hid' hslot' hinv' hcnt'
  refine ⟨hok, hok2, ?_⟩
  rw [houts, hcont, hcont0]
  simp

/-- Witness for C4: sends of `[10, 20]` on a fresh capacity-2 channel are
received back as `[10, 20]`. -/
theorem claim_C4_witness :
    chanInv ⟨2, [0, 0], 0, 0⟩ ∧
    (tryRecvAll (trySendAll ⟨[some ⟨2, [0, 0], 0, 0⟩], 4⟩ 0 [10, 20]).1 0 2).2.1 =
      [10, 20] :=
  ⟨by decide,
   (claim_C4 ⟨[some ⟨2, [0, 0], 0, 0⟩], 4⟩ 0 ⟨2, [0, 0], 0, 0⟩ [10, 20] (by decide)
     (by decide) (by decide) (by decide) (by decide)).2.2⟩

/-- C5 (amended): `try_send_v` on a valid channel fails with `WOULD_BLOCK`
exactly when `data_count == size_limit` at entry; otherwise it transfers
exactly `min(n, capacity - count)` elements (appending that prefix of the
request to the channel contents), returns that count, wakes one receiver
per transferred element, and the count is at least 1 whenever the request
is non-empty.  (The original claim asserted a return of at least 1 for
every request; a request of 0 elements returns 0 — see the
counterexample.) -/
theorem claim_C5 (bus : Bus) (id : Nat) (ch : Channel) (vs : List Nat)
    (hid : id < bus.channels.length)
    (hslot : bus.channels.getD id none = some ch)
    (hinv : chanInv ch) :
    ((coro_bus_try_send_v bus (id : Int) vs).err = .WOULD_BLOCK ↔
       ch.data_count = ch.size_limit) ∧
    (ch.data_count = ch.size_limit →
       coro_bus_try_send_v bus (id : Int) vs = failRes bus .WOULD_BLOCK) ∧
    (ch.data_count < ch.size_limit →
       (coro_bus_try_send_v bus (id : Int) vs).ret =
         ((min vs.length (ch.size_limit - ch.data_count) : Nat) : Int) ∧
       (coro_bus_try_send_v bus (id : Int) vs).recvWakeups =
         min vs.length (ch.size_limit - ch.data_count) ∧
       (vs ≠ [] → 1 ≤ min vs.length (ch.size_limit - ch.data_count)) ∧
       (coro_bus_try_send_v bus (id : Int) vs).bus.channels.getD id none =
         some (chanPushAll ch
           (vs.take (min vs.length (ch.size_limit - ch.data_count)))) ∧
       chanContents (chanPushAll ch
           (vs.take (min vs.length (ch.size_limit - ch.data_count)))) =
         chanContents ch ++ vs.take (min vs.length (ch.size_limit - ch.data_count))) := by
  obtain ⟨hl1, hl2, hl3⟩ := hinv
  by_cases hfull : ch.size_limit ≤ ch.data_count
  · have heq : ch.data_count = ch.size_limit := by omega
    have hr := coro_bus_try_send_v_full bus id ch vs hid hslot hfull
    exact ⟨by rw [hr]; simpa [failRes] using heq,
      fun _ => hr, fun hlt => absurd hlt (by omega)⟩
  · have hlt : ch.data_count < ch.size_limit := by omega
    have hr := coro_bus_try_send_v_room bus id ch vs hid hslot ⟨hl1, hl2, hl3⟩ hlt
    have htk : ch.data_count +
        (vs.take (min vs.length (ch.size_limit - ch.data_count))).length ≤
        ch.size_limit := by
      rw [List.length_take]
      omega
    obtain ⟨hinv', hsz, hcnt, hcont⟩ :=
      chanPushAll_spec _ ch ⟨hl1, hl2, hl3⟩ htk
    refine ⟨by rw [hr]; simp; omega, fun h => absurd h (by omega),
      fun _ => ⟨by rw [hr], by rw [hr], ?_, ?_, hcont⟩⟩
    · intro hne
      have hlen : 0 < vs.length := List.length_pos.mpr hne
      omega
    · rw [hr]
      exact setSlot_getD_self bus id _ hid

/-- Witness for C5: a request of 3 values on a fresh capacity-2 channel
transfers exactly 2. -/
theorem claim_C5_witness :
    chanInv ⟨2, [0, 0], 0, 0⟩ ∧
    (coro_bus_try_send_v ⟨[some ⟨2, [0, 0], 0, 0⟩], 4⟩ 0 [1, 2, 3]).ret =
      ((min ([1, 2, 3] : List Nat).length (2 - 0) : Nat) : Int) :=
  ⟨by decide,
   ((claim_C5 ⟨[some ⟨2, [0, 0], 0, 0⟩], 4⟩ 0 ⟨2, [0, 0], 0, 0⟩ [1, 2, 3]
     (by decide) (by decide) (by decide)).2.2 (by decide)).1⟩

/-- Counterexample to C5 as stated: a request of `n = 0` elements on a
non-full channel transfers `min(0, capacity - count) = 0` elements and
returns 0, not a count ≥ 1 as the claim asserts for every request. -/
theorem claim_C5_counterexample :
    (coro_bus_try_send_v ⟨[some ⟨2, [0, 0], 0, 0⟩], 4⟩ 0 []).ret = 0 ∧
    ¬ 1 ≤ (coro_bus_try_send_v ⟨[some ⟨2, [0, 0], 0, 0⟩], 4⟩ 0 []).ret := by
  decide

/-- C2: `try_broadcast` is all-or-nothing.  If every slot is empty it fails
with `NO_CHANNEL`; if some live channel is full it fails with `WOULD_BLOCK`
and the returned state is the input bus, so no channel's ring, head or
count is mutated; if it succeeds, every live channel becomes its push by
the value: its count increased by exactly 1 and the value was appended to
its contents. -/
theorem claim_C2 (bus : Bus) (v : Nat)
    (hinv : ∀ i ch, bus.channels.getD i none = some ch → chanInv ch) :
    ((∀ c ∈ bus.channels, c = none) →
       coro_bus_try_broadcast bus v = failRes bus .NO_CHANNEL) ∧
    ((∃ ch, some ch ∈ bus.channels ∧ ch.size_limit ≤ ch.data_count) →
       coro_bus_try_broadcast bus v = failRes bus .WOULD_BLOCK) ∧
    ((∃ c ∈ bus.channels, c ≠ none) →
     (∀ ch, some ch ∈ bus.channels → ch.data_count < ch.size_limit) →
       (coro_bus_try_broadcast bus v).ret = 0 ∧
       (coro_bus_try_broadcast bus v).err = .NONE ∧
       (∀ i ch, bus.channels.getD i none = some ch →
          (coro_bus_try_broadcast bus v).bus.channels.getD i none =
            some (chan_push ch v) ∧
          (chan_push ch v).data_count = ch.data_count + 1 ∧
          chanContents (chan_push ch v) = chanContents ch ++ [v])) := by
  refine ⟨?_, ?_, ?_⟩
  · intro hall
    have hc : bus.channels.countP (fun c => c.isSome) = 0 := by
      rw [List.countP_eq_zero]
      intro a ha
      rw [hall a ha]
      simp
    unfold coro_bus_try_broadcast
    simp [hc]
  · rintro ⟨ch, hmem, hfull⟩
    have hcpos : ¬ bus.channels.countP (fun c => c.isSome) = 0 := by
      have h0 : 0 < bus.channels.countP (fun c => c.isSome) :=
        List.countP_pos_iff.mpr ⟨some ch, hmem, rfl⟩
      omega
    have hany : bus.channels.any (fun c =>
        match c with
        | some ch => decide (ch.size_limit ≤ ch.data_count)
        | none => false) = true := by
      rw [List.any_eq_true]
      exact ⟨some ch, hmem, by simpa using hfull⟩
    unfold coro_bus_try_broadcast
    simp [hcpos, hany]
  · rintro ⟨c0, hmem0, hne0⟩ hnofull
    have hcpos : ¬ bus.channels.countP (fun c => c.isSome) = 0 := by
      have hsome : c0.isSome := Option.ne_none_iff_isSome.mp hne0
      have h0 : 0 < bus.channels.countP (fun c => c.isSome) :=
        List.countP_pos_iff.mpr ⟨c0, hmem0, hsome⟩
      omega
    have hany : bus.channels.any (fun c =>
        match c with
        | some ch => decide (ch.size_limit ≤ ch.data_count)
        | none => false) = false := by
      rw [List.any_eq_false]
      intro x hx
      cases x with
      | none => simp
      | some ch =>
        have := hnofull ch hx
        simp
        omega
    have hres : coro_bus_try_broadcast bus v =
        { bus := { bus with channels :=
            bus.channels.map (fun c => c.map (fun ch => chan_push ch v)) }
          ret := 0, err := .NONE, out := [], sendWakeups := 0
          recvWakeups := bus.channels.countP (fun c => c.isSome) } := by
      unfold coro_bus_try_broadcast
      simp [hcpos, hany]
    refine ⟨by rw [hres], by rw [hres], ?_⟩
    intro i ch hgd
    have hsome : bus.channels[i]? = some (some ch) := by
      rw [List.getD_eq_getElem?_getD] at hgd
      cases hx : bus.channels[i]? with
      | none => rw [hx] at hgd; simp at hgd
      | some o =>
        rw [hx] at hgd
        simp only [Option.getD_some] at hgd
        exact congrArg some hgd
    have hmem : some ch ∈ bus.channels := List.getElem?_mem hsome
    refine ⟨?_, rfl, chan_push_contents ch v (hinv i ch hgd) (hnofull ch hmem)⟩
    rw [hres]
    simp [List.getD_eq_getElem?_getD, List.getElem?_map, hsome]

/-- Witness for C2: broadcasting 7 over two fresh channels pushes 7 into
both. -/
theorem claim_C2_witness :
    ((⟨[some ⟨1, [0], 0, 0⟩, some ⟨2, [0, 0], 0, 0⟩], 4⟩ : Bus).channels.getD 0 none =
        some ⟨1, [0], 0, 0⟩) ∧
    (coro_bus_try_broadcast ⟨[some ⟨1, [0], 0, 0⟩, some ⟨2, [0, 0], 0, 0⟩], 4⟩ 7).ret = 0 :=
  ⟨by decide,
   ((claim_C2 ⟨[some ⟨1, [0], 0, 0⟩, some ⟨2, [0, 0], 0, 0⟩], 4⟩ 7
      (by
        intro i ch h
        match i with
        | 0 => simp at h; subst h; decide
        | 1 => simp at h; subst h; decide
        | n + 2 => simp [List.getD] at h)).2.2
      ⟨some ⟨1, [0], 0, 0⟩, by decide, by decide⟩
      (by
        intro ch h
        simp at h
        rcases h with h | h <;> subst h <;> decide)).1⟩

/-- C7 (amended): the channel-table growth policy.  The first allocation
holds 4 slots; a growth at capacity `c` with `0 < c ≤ 1024` doubles `c`
(so the growth from exactly 1024 yields 2048, not ×1.25 as the original
claim's "below the threshold" boundary implies — see the counterexample);
a growth at `c > 1024` yields `c + c/4`, i.e. ×1.25 rounded down.
`channel_open` reuses the lowest empty slot before appending, and the
opened channel's ring holds exactly `capacity` cells. -/
theorem claim_C7 :
    grow_capacity 0 = 4 ∧
    (∀ c, 0 < c → c ≤ 1024 → grow_capacity c = c * 2) ∧
    (∀ c, 1024 < c → grow_capacity c = c + c / 4) ∧
    (∀ s, (coro_bus_channel_open ⟨[], 0⟩ s).1.channel_capacity = 4) ∧
    (∀ bus s i, find_empty_slot bus.channels = some i →
       coro_bus_channel_open bus s =
         ({ bus with channels := bus.channels.set i (some (newChannel s)) },
          (i : Int)) ∧
       bus.channels.getD i none = none ∧
       (∀ j, j < i → bus.channels.getD j none ≠ none)) ∧
    (∀ bus s, find_empty_slot bus.channels = none →
       (coro_bus_channel_open bus s).1.channels =
         bus.channels ++ [some (newChannel s)] ∧
       (coro_bus_channel_open bus s).2 = (bus.channels.length : Int) ∧
       (coro_bus_channel_open bus s).1.channel_capacity =
         (if bus.channel_capacity ≤ bus.channels.length then
            grow_capacity bus.channel_capacity
          else bus.channel_capacity)) ∧
    (∀ s, (newChannel s).data.length = s) := by
  refine ⟨rfl, ?_, ?_, ?_, ?_, ?_, ?_⟩
  · intro c h0 h1
    unfold grow_capacity
    rw [if_neg (by omega), if_pos h1]
  · intro c h1
    unfold grow_capacity
    rw [if_neg (by omega), if_neg (by omega)]
  · intro s
    rfl
  · intro bus s i hfind
    obtain ⟨hlen, hslot, hmin⟩ := find_empty_slot_spec bus.channels i hfind
    refine ⟨?_, hslot, hmin⟩
    unfold coro_bus_channel_open
    rw [hfind]
  · intro bus s hfind
    unfold coro_bus_channel_open
    rw [hfind]
    exact ⟨rfl, rfl, rfl⟩
  · intro s
    simp [newChannel]

/-- Witness for C7: growth from capacity 8 doubles to 16. -/
theorem claim_C7_witness :
    ((0 : Nat) < 8 ∧ (8 : Nat) ≤ 1024) ∧ grow_capacity 8 = 8 * 2 :=
  ⟨by decide, claim_C7.2.1 8 (by decide) (by decide)⟩

/-- Counterexample to C7 as stated: capacity 1024 is not below the 1024
threshold, so the claim prescribes growth by ×1.25 to 1280; the code's
branch condition is `<= 1024`, so it doubles 1024 to 2048. -/
theorem claim_C7_counterexample :
    grow_capacity 1024 = 2048 ∧ grow_capacity 1024 ≠ 1024 + 1024 / 4 := by
  decide

end Corobus

namespace Shell

/-- C1 (amended): for a single-command `exit` pipeline run in the
foreground with `allow_exit` and no file redirection, an invalid first
argument (not a decimal integer in [0,255], i.e. `parse_exit_code` yields
`-1`) makes the shell print the invalid-exit-code error and produce status
1 — but `handle_single_builtin` sets `should_exit := true` unconditionally
on this path, so the shell terminates with status 1 rather than continuing
as the original claim states (see the counterexample). -/
theorem claim_C1 (cd_exec : Command → Bool → ExecResult) (cmd : Command)
    (line : CommandLine) (is_last : Bool) (last_status : Int) (arg : String)
    (hexe : cmd.exe = "exit")
    (hargs : cmd.args = [arg])
    (hinvalid : parse_exit_code arg = -1)
    (hout : line.out_type = OutputType.STDOUT) :
    handle_single_builtin cd_exec cmd line is_last true last_status =
      ({ code := 1, should_exit := true }, true) := by
  unfold handle_single_builtin
  rw [if_pos ⟨hexe, rfl, hout⟩]
  unfold get_exit_code
  rw [hargs]
  simp [hinvalid]

/-- Witness for C1 at the argument `999`. -/
theorem claim_C1_witness :
    parse_exit_code "999" = -1 ∧
    handle_single_builtin (fun _ _ => ⟨0, false⟩) ⟨"exit", ["999"]⟩
        ⟨OutputType.STDOUT, "", false⟩ true true 0 =
      ({ code := 1, should_exit := true }, true) :=
  ⟨by decide,
   claim_C1 (fun _ _ => ⟨0, false⟩) ⟨"exit", ["999"]⟩ ⟨OutputType.STDOUT, "", false⟩
     true 0 "999" rfl rfl (by decide) rfl⟩

/-- Counterexample to C1 as stated: on `exit 999` (foreground, allow_exit,
stdout output) the result's `should_exit` is `true`, not `false` — the
code sets `should_exit = true` before checking validity, so the shell does
terminate. -/
theorem claim_C1_counterexample :
    (handle_single_builtin (fun _ _ => ⟨0, false⟩) ⟨"exit", ["999"]⟩
        ⟨OutputType.STDOUT, "", false⟩ true true 0).1.should_exit = true ∧
    ¬ (handle_single_builtin (fun _ _ => ⟨0, false⟩) ⟨"exit", ["999"]⟩
        ⟨OutputType.STDOUT, "", false⟩ true true 0).1.should_exit = false := by
  decide

/-- C8: sequence execution is left-to-right with short-circuiting.  A
pipeline preceded by `And` is skipped (status unchanged) when the status
is nonzero and runs when it is zero; a pipeline preceded by `Or` is
skipped when the status is zero and runs when it is nonzero; a pipeline
that runs and reports `should_exit` terminates the walk immediately with
its code. -/
theorem claim_C8 (ex : List Command → CommandLine → Bool → Bool → Int → ExecResult)
    (line : CommandLine) (ae : Bool) (ops : List ExprType) (i : Nat)
    (p : List Command) (rest : List (List Command)) (status : Int) :
    (0 < i → ops.getD (i - 1) .COMMAND = .AND → status ≠ 0 →
       run_seq_from ex line ae ops i (p :: rest) status =
         run_seq_from ex line ae ops (i + 1) rest status) ∧
    (0 < i → ops.getD (i - 1) .COMMAND = .OR → status = 0 →
       run_seq_from ex line ae ops i (p :: rest) status =
         run_seq_from ex line ae ops (i + 1) rest status) ∧
    (0 < i → ops.getD (i - 1) .COMMAND = .AND → status = 0 →
       should_execute ops i status = true) ∧
    (0 < i → ops.getD (i - 1) .COMMAND = .OR → status ≠ 0 →
       should_execute ops i status = true) ∧
    (should_execute ops i status = true →
       run_seq_from ex line ae ops i (p :: rest) status =
         (if (ex p line rest.isEmpty ae status).should_exit then
            ((ex p line rest.isEmpty ae status).code, true)
          else run_seq_from ex line ae ops (i + 1) rest
            (ex p line rest.isEmpty ae status).code)) ∧
    (should_execute ops i status = true →
     (ex p line rest.isEmpty ae status).should_exit = true →
       run_seq_from ex line ae ops i (p :: rest) status =
         ((ex p line rest.isEmpty ae status).code, true)) := by
  refine ⟨?_, ?_, ?_, ?_, ?_, ?_⟩
  · intro hi hop hst
    have hse : should_execute ops i status = false := by
      unfold should_execute
      rw [if_neg (by omega), hop]
      simp [hst]
    simp [run_seq_from, hse]
  · intro hi hop hst
    have hse : should_execute ops i status = false := by
      unfold should_execute
      rw [if_neg (by omega), hop]
      simp [hst]
    simp [run_seq_from, hse]
  · intro hi hop hst
    unfold should_execute
    rw [if_neg (by omega), hop]
    simp [hst]
  · intro hi hop hst
    unfold should_execute
    rw [if_neg (by omega), hop]
    simp [hst]
  · intro hse
    simp [run_seq_from, hse]
  · intro hse hex
    simp [run_seq_from, hse, hex]

/-- Witness for C8: after `false`-like status 1, an `And`-joined pipeline
is skipped with the status unchanged. -/
theorem claim_C8_witness :
    ((0 : Nat) < 1 ∧ [ExprType.AND].getD 0 .COMMAND = ExprType.AND ∧ (1 : Int) ≠ 0) ∧
    run_seq_from (fun _ _ _ _ st => ⟨st, false⟩) ⟨OutputType.STDOUT, "", false⟩ true
        [ExprType.AND] 1 [[⟨"echo", []⟩]] 1 =
      run_seq_from (fun _ _ _ _ st => ⟨st, false⟩) ⟨OutputType.STDOUT, "", false⟩ true
        [ExprType.AND] 2 [] 1 :=
  ⟨⟨by decide, by decide, by decide⟩,
   (claim_C8 (fun _ _ _ _ st => ⟨st, false⟩) ⟨OutputType.STDOUT, "", false⟩ true
     [ExprType.AND] 1 [⟨"echo", []⟩] [] 1).1 (by decide) (by decide) (by decide)⟩

/-- C9 (amended): on a background line, the shell forks once; the child
runs the whole sequence with `allow_exit = false` and `_exit`s with its
final status; the parent records the child pid in the background set,
reports line status 0 and does not request shell exit.  The child of this
`solution.cpp` installs no signal handlers, so — contrary to the original
claim — it does not ignore `SIGTTIN`/`SIGTTOU` (see the counterexample). -/
theorem claim_C9 (ex : List Command → CommandLine → Bool → Bool → Int → ExecResult)
    (parsed : ParsedSequence) (line : CommandLine) (last_status : Int)
    (bg : List Nat) (pid : Nat)
    (hbg : line.is_background = true) :
    process_command_line ex parsed line last_status bg (some pid) =
      (0, false, bg ++ [pid],
       some { exit_status := (run_command_sequence ex parsed line last_status false).1
              ignored_signals := [] }) ∧
    (execute_background_command ex parsed line last_status bg (some pid)).1 = 1 := by
  constructor
  · simp [process_command_line, execute_background_command, hbg]
  · rfl

/-- Witness for C9 at a concrete background line. -/
theorem claim_C9_witness :
    (⟨OutputType.STDOUT, "", true⟩ : CommandLine).is_background = true ∧
    process_command_line (fun _ _ _ _ _ => ⟨0, false⟩) ⟨[], []⟩
        ⟨OutputType.STDOUT, "", true⟩ 3 [] (some 7) =
      (0, false, [] ++ [7],
       some { exit_status := (run_command_sequence (fun _ _ _ _ _ => ⟨0, false⟩)
                ⟨[], []⟩ ⟨OutputType.STDOUT, "", true⟩ 3 false).1
              ignored_signals := [] }) :=
  ⟨rfl,
   (claim_C9 (fun _ _ _ _ _ => ⟨0, false⟩) ⟨[], []⟩ ⟨OutputType.STDOUT, "", true⟩
     3 [] 7 rfl).1⟩

/-- Counterexample to C9 as stated: the forked child's ignored-signal set
is empty — the child body (src/2/solution.cpp:395-398) performs no
`signal`/`sigaction` call — so it does not ignore `SIGTTIN` or
`SIGTTOU`. -/
theorem claim_C9_counterexample :
    (execute_background_command (fun _ _ _ _ _ => ⟨0, false⟩) ⟨[], []⟩
        ⟨OutputType.STDOUT, "", true⟩ 0 [] (some 7)).2.2.2 =
      some { exit_status := 0, ignored_signals := [] } ∧
    "SIGTTIN" ∉ BgChild.ignored_signals { exit_status := 0, ignored_signals := [] } ∧
    "SIGTTOU" ∉ BgChild.ignored_signals { exit_status := 0, ignored_signals := [] } := by
  refine ⟨rfl, by simp, by simp⟩

end Shell
